import Mathlib

/-!
Verification of the pairwise differential-expression pipeline
(`pairwise_de.py`): a shallow embedding of the core components (job runner,
result classifier, mask engine, rank aggregator, gene-name mapper) and
proofs about them.

Embedding conventions:
* A table row (one line of a per-sample edgeR result file) is a
  `ResultRecord` with rational numeric fields; a `ResultFile` is the ordered
  list of its rows.
* Python dictionaries keyed by gene id (`defaultdict(list)` in the source)
  are modelled as association lists in insertion order.  CPython 2.7
  enumerates dict keys in hash order; insertion order is the canonical
  deterministic choice for the embedding and every theorem that depends on
  enumeration order of ties says so where it matters.
* Floating point is modelled by `Rat` for the exactly-representable
  arithmetic the claims are about (comparisons, medians, counts); standard
  deviations, which involve a square root, live in `Real`.
-/

namespace PairwiseDE

/-- One row of an edgeR result table: gene id plus the `PValue`, `logFC`
and `logCPM` columns. -/
structure ResultRecord where
  gene_id : String
  p_value : Rat
  log_fc : Rat
  log_cpm : Rat
deriving DecidableEq, Repr

/-- An edgeR result file: the ordered rows of one per-sample table. -/
abbrev ResultFile := List ResultRecord

/-- The fixed significance threshold `0.001` used both by the mask engine
and by the ranking count. -/
def pvalThreshold : Rat := mkRat 1 1000

/-! ## Mask engine (`Analysis._produce_masks`) -/

/-- `df_tumor.drop(gene, inplace=True)` wrapped in `try/except ValueError`:
removes every row labelled `g`; if no row matches, the drop is a no-op
(the exception is caught and ignored). -/
def dropGene (t : ResultFile) (g : String) : ResultFile :=
  t.filter (fun r => decide (¬ r.gene_id = g))

/-- `Analysis._produce_masks`, one matched pair: flag the normal-file genes
with `PValue < 0.001`, drop each flagged gene from the tumor file, and
return the masked tumor table together with the flagged-gene list (the
sidecar `_masked_genes` file contents, in normal-file row order). -/
def produce_mask (df_norm df_tumor : ResultFile) : ResultFile × List String :=
  let masked_genes :=
    (df_norm.filter (fun r => decide (r.p_value < pvalThreshold))).map (fun r => r.gene_id)
  (masked_genes.foldl dropGene df_tumor, masked_genes)

theorem foldl_dropGene_eq_filter (gs : List String) (t : ResultFile) :
    gs.foldl dropGene t = t.filter (fun r => decide (¬ r.gene_id ∈ gs)) := by
  induction gs generalizing t with
  | nil => simp
  | cons g gs ih =>
    rw [List.foldl_cons, ih, dropGene, List.filter_filter]
    apply List.filter_congr
    intro r _
    by_cases h1 : r.gene_id = g <;> by_cases h2 : r.gene_id ∈ gs <;>
      simp [h1, h2]

/-! ## Statistics helpers (`np.median`, `np.std` with `ddof=0`) -/

/-- Insert into an ascending-sorted list (helper for `sortRat`). -/
def insertSorted (x : Rat) : List Rat → List Rat
  | [] => [x]
  | y :: ys => if x ≤ y then x :: y :: ys else y :: insertSorted x ys

/-- Ascending sort of a list of rationals, as `np.median` sorts its input. -/
def sortRat (xs : List Rat) : List Rat := xs.foldr insertSorted []

/-- `np.median`: middle element of the sorted list for odd length, mean of
the two middle elements for even length.  (The p-value series of any gene
in the accumulator is nonempty; the `0` default is never reached there.) -/
def median (xs : List Rat) : Rat :=
  let s := sortRat xs
  let n := s.length
  if n = 0 then 0
  else if n % 2 = 1 then s.getD (n / 2) 0
  else (s.getD (n / 2 - 1) 0 + s.getD (n / 2) 0) / 2

/-- Arithmetic mean of a list of rationals. -/
def listMean (xs : List Rat) : Rat := xs.sum / (xs.length : Rat)

/-- `np.var` with `ddof=0` (population variance): mean squared deviation. -/
def variance (xs : List Rat) : Rat :=
  ((xs.map (fun x => (x - listMean xs) ^ 2)).sum) / (xs.length : Rat)

/-- `np.std` with `ddof=0`: square root of the population variance. -/
noncomputable def stdR (xs : List Rat) : Real := Real.sqrt ((variance xs : Rat) : Real)

/-! ## Rank aggregator state (`self.pvals`, `self.fc`, `self.cpm`) -/

/-- Look up a key in an insertion-ordered association list of series;
a missing key yields `[]`, matching `defaultdict(list)`. -/
def lookupList (m : List (String × List Rat)) (g : String) : List Rat :=
  match m with
  | [] => []
  | (k, vs) :: rest => if k = g then vs else lookupList rest g

/-- `d[k].append(v)` on a `defaultdict(list)`: extend the series of `k` in
place, or add a new key at the end (insertion order). -/
def appendAt (m : List (String × List Rat)) (k : String) (v : Rat) :
    List (String × List Rat) :=
  match m with
  | [] => [(k, [v])]
  | (k', vs) :: rest =>
      if k' = k then (k', vs ++ [v]) :: rest else (k', vs) :: appendAt rest k v

/-- The three per-gene accumulators of the `Analysis` object
(`self.pvals`, `self.fc`, `self.cpm`), each a `defaultdict(list)`. -/
structure AccumState where
  pvals : List (String × List Rat)
  fc : List (String × List Rat)
  cpm : List (String × List Rat)
deriving DecidableEq, Repr

/-- The accumulators as `Analysis.__init__` leaves them: all empty. -/
def initAccum : AccumState := ⟨[], [], []⟩

/-- One iteration of the `for gene in df.index` loop of
`Analysis._rank_results`: append the row's three values to the gene's
series. -/
def accumRecord (st : AccumState) (r : ResultRecord) : AccumState :=
  { pvals := appendAt st.pvals r.gene_id r.p_value
    fc := appendAt st.fc r.gene_id r.log_fc
    cpm := appendAt st.cpm r.gene_id r.log_cpm }

/-- Scanning one result file row by row. -/
def accumFile (st : AccumState) (f : ResultFile) : AccumState :=
  f.foldl accumRecord st

/-- One row of the ranked output table (`ranked`): the columns built by
`Analysis._rank_results` (the standard-deviation columns are handled
separately below, see `pval_std`). -/
structure RankedRow where
  gene : String
  pval : Rat
  pval_counts : Nat
  fc : Rat
  cpm : Rat
  num_samples : Nat
deriving DecidableEq, Repr

/-- The ranked-table row of one gene: `pval` is the median of its p-value
series, `pval_counts` the number of p-values strictly below `0.001`, `fc`
and `cpm` the medians of the other two series, `num_samples` the p-value
series length. -/
def mkRow (st : AccumState) (g : String) : RankedRow :=
  { gene := g
    pval := median (lookupList st.pvals g)
    pval_counts := ((lookupList st.pvals g).filter (fun y => decide (y < pvalThreshold))).length
    fc := median (lookupList st.fc g)
    cpm := median (lookupList st.cpm g)
    num_samples := (lookupList st.pvals g).length }

/-- The `pval_std` column entry of the row keyed by `g`.  The column is
assigned before the table is sorted, so after `sort_values` the row keyed
by `g` still carries the standard deviation of the series of `g`. -/
noncomputable def pval_std (st : AccumState) (g : String) : Real :=
  stdR (lookupList st.pvals g)

/-- The `fc_std` column entry of the row keyed by `g`. -/
noncomputable def fc_std (st : AccumState) (g : String) : Real :=
  stdR (lookupList st.fc g)

/-- The `cpm_std` column entry of the row keyed by `g`. -/
noncomputable def cpm_std (st : AccumState) (g : String) : Real :=
  stdR (lookupList st.cpm g)

/-- Insertion step of the descending sort on `pval_counts`.  The embedding
models `ranked.sort_values('pval_counts', ascending=False)` as a stable
descending sort; pandas' default sort kind is unstable, so no claim proof
may depend on the relative order of tied rows (those settled here use
pairwise-distinct counts). -/
def insertRow (x : RankedRow) : List RankedRow → List RankedRow
  | [] => [x]
  | y :: ys =>
      if y.pval_counts ≤ x.pval_counts then x :: y :: ys else y :: insertRow x ys

/-- `ranked.sort_values('pval_counts', ascending=False)`. -/
def sort_values (t : List RankedRow) : List RankedRow := t.foldr insertRow []

/-- The table built at the end of `Analysis._rank_results` from the current
accumulator: one row per key of `self.pvals` (`self.genes`), sorted
descending by `pval_counts`. -/
def rank_results (st : AccumState) : List RankedRow :=
  sort_values ((st.pvals.map Prod.fst).map (mkRow st))

/-- `Analysis._rank_results(directory, ranked)`: fold the directory's
result files into the (instance-owned) accumulator, then build the ranked
table from the accumulator.  Returns the updated accumulator and the
table. -/
def rank_results_pass (st : AccumState) (files : List ResultFile) :
    AccumState × List RankedRow :=
  let st2 := files.foldl accumFile st
  (st2, rank_results st2)

/-- The ranking loop of `Analysis.read_results` (the
`for directory in [self.masked_dir, self.unmatched_dir]` loop): the masked
pass runs on the accumulator as `__init__` left it, and the unmatched pass
runs on the accumulator as the masked pass left it — the instance fields
are never cleared in between. -/
def read_results_rank (maskedFiles unmatchedFiles : List ResultFile) :
    List RankedRow × List RankedRow :=
  let p1 := rank_results_pass initAccum maskedFiles
  let p2 := rank_results_pass p1.1 unmatchedFiles
  (p1.2, p2.2)

/-- `Analysis._remove_unrepresented_genes`: pop a gene whose series is
shorter than 90% of the total file count.  Defined but never called from
the pipeline (`read_results` does not invoke it), mirroring the source. -/
def remove_unrepresented_genes (numSamples : Nat) (st : AccumState) (g : String) :
    AccumState :=
  if (lookupList st.pvals g).length < (numSamples * 9) / 10 then
    { pvals := st.pvals.filter (fun kv => decide (¬ kv.1 = g))
      fc := st.fc.filter (fun kv => decide (¬ kv.1 = g))
      cpm := st.cpm.filter (fun kv => decide (¬ kv.1 = g)) }
  else st

/-! ## Gene name mapper (`Analysis._add_mapped_genes`) -/

/-- First-match lookup in a list of `(geneId, geneName)` pairs. -/
def lookupName : List (String × String) → String → Option String
  | [], _ => none
  | (k, v) :: rest, g => if k = g then some v else lookupName rest g

/-- The `gene_mappings` dict comprehension: for duplicate `geneId` entries
the later row wins, so look the key up in the reversed table. -/
def gene_mappings (idMap : List (String × String)) (g : String) : Option String :=
  lookupName idMap.reverse g

/-- The `try: gene_mappings[gene] / except KeyError: gene` fallback: the
mapped name when the id is in the table, the raw id otherwise. -/
def mapGene (idMap : List (String × String)) (g : String) : String :=
  (gene_mappings idMap g).getD g

/-- `Analysis._add_mapped_genes`: `df['gene_name'] = mapped_genes` assigns
the name list positionally, so row `i` of the (already sorted) table is
paired with the name of gene `i` of the pre-sort enumeration `self.genes`,
not with the mapping of its own gene id. -/
def add_mapped_genes (idMap : List (String × String)) (genes : List String)
    (table : List RankedRow) : List (RankedRow × String) :=
  table.zip (genes.map (mapGene idMap))

/-- One pass of ranking followed by name mapping, as `read_results` runs it
for one result-set directory: `self.genes` is the key list of the
accumulator after the scan, and the mapped-name column is attached to the
sorted table positionally. -/
def rank_and_map (idMap : List (String × String)) (st0 : AccumState)
    (files : List ResultFile) : List (RankedRow × String) :=
  let st := files.foldl accumFile st0
  add_mapped_genes idMap (st.pvals.map Prod.fst) (rank_results st)

/-! ## Result classifier (`Analysis.read_results`, lines 128-139) -/

/-- Python's `x[:-7]`: drop the last seven characters (the
`.01.tsv` / `.11.tsv` suffix), by code points. -/
def stripTypeSuffix (x : String) : String := ⟨x.data.take (x.data.length - 7)⟩

/-- `[x for x in os.listdir(...) if x.endswith('.tsv')]`. -/
def tsvOnly (listing : List String) : List String :=
  listing.filter (fun x => ".tsv".data.isSuffixOf x.data)

/-- Occurrence count of one barcode in the barcode list
(`Counter(barcodes)`). -/
def countOcc (b : String) : List String → Nat
  | [] => 0
  | x :: xs => (if x = b then 1 else 0) + countOcc b xs

/-- The matched-subject computation of `read_results`: barcodes whose
occurrence count is exactly 2 and for which both the `.11.tsv` and the
`.01.tsv` file literally exist. -/
def matchedSubjects (dfs : List String) : List String :=
  (dfs.map stripTypeSuffix).dedup.filter
    (fun b => decide (countOcc b (dfs.map stripTypeSuffix) = 2 ∧
      (b ++ ".11.tsv") ∈ dfs ∧ (b ++ ".01.tsv") ∈ dfs))

/-- The files relocated to the matched area: both files of every matched
subject (`set([x+'.11.tsv' ...] + [x+'.01.tsv' ...])`). -/
def matchedFilesOf (dfs : List String) : List String :=
  (matchedSubjects dfs).map (fun b => b ++ ".11.tsv") ++
    (matchedSubjects dfs).map (fun b => b ++ ".01.tsv")

/-- The files relocated to the unmatched area: `set(self.dfs) - matched`. -/
def unmatchedFilesOf (dfs : List String) : List String :=
  dfs.filter (fun x => decide (¬ x ∈ matchedFilesOf dfs))

/-- The classification step of `Analysis.read_results`: filter the listing
to `.tsv` files, compute the matched subjects, and the two relocation
plans. -/
def read_results_classify (listing : List String) :
    List String × List String × List String :=
  let dfs := tsvOnly listing
  (matchedSubjects dfs, matchedFilesOf dfs, unmatchedFilesOf dfs)

/-! ## Job runner (`Analysis.run_pairwise_edger`, `Analysis._run_edger`) -/

/-- The observable outcome of one `Rscript` process: its exit status.
`subprocess.Popen` is called without `stdout=`/`stderr=` pipes, so
`p.communicate()` always returns `(None, None)` regardless of what the
process printed. -/
structure ProcResult where
  returncode : Int
deriving DecidableEq, Repr

/-- `p.communicate()` with no captured streams: `(None, None)`. -/
def communicate (_p : ProcResult) : Option String × Option String := (none, none)

/-- Python's `str.format` rendering of an `Option String` argument:
`None` for the absent value. -/
def pyStr : Option String → String
  | none => "None"
  | some s => s

/-- `Analysis._run_edger`: run the external process for one sample; on a
non-zero exit status raise `RuntimeError` with the formatted message (the
sample name is not part of the message, and the interpolated out/err are
the `None`s returned by `communicate`). -/
def run_edger (_sample : String) (p : ProcResult) : Except String String :=
  let oe := communicate p
  if p.returncode = 0 then Except.ok "yay!"
  else Except.error
    ("EdgeR run failed!\n\n\nstdout:\n" ++ pyStr oe.1 ++ "stderr:\n" ++ pyStr oe.2
      ++ "\n\n\n")

/-- `Analysis.run_pairwise_edger`: `executor.map(self._run_edger, ...)`
returns a lazy result iterator that the method never consumes, and the
`with` block only waits for the futures to finish — so a worker's raised
exception is stored in its future and discarded, and the method returns
normally whatever the exit statuses were. -/
def run_pairwise_edger (jobs : List (String × ProcResult)) : Except String Unit :=
  let _results := jobs.map (fun j => run_edger j.1 j.2)
  Except.ok ()

/-- `main`: `a.run_pairwise_edger()` followed unconditionally by
`a.read_results()` — the ranking stage runs (and its tables are written)
unless `run_pairwise_edger` itself raises. -/
def main_pipeline (jobs : List (String × ProcResult))
    (maskedFiles unmatchedFiles : List ResultFile) :
    Option (List RankedRow × List RankedRow) :=
  match run_pairwise_edger jobs with
  | Except.error _ => none
  | Except.ok _ => some (read_results_rank maskedFiles unmatchedFiles)

/-! ## Association-list and accumulation lemmas -/

theorem lookupList_appendAt (m : List (String × List Rat)) (k g : String) (v : Rat) :
    lookupList (appendAt m k v) g =
      if k = g then lookupList m g ++ [v] else lookupList m g := by
  induction m with
  | nil =>
    by_cases h : k = g <;> simp [appendAt, lookupList, h]
  | cons kv rest ih =>
    obtain ⟨k', vs⟩ := kv
    by_cases h1 : k' = k
    · subst h1
      by_cases h : k' = g <;> simp [appendAt, lookupList, h]
    · by_cases h2 : k' = g
      · have hkg : ¬ k = g := fun hh => h1 (h2.trans hh.symm)
        have hgk : ¬ g = k := fun hh => hkg hh.symm
        simp [appendAt, lookupList, h1, h2, hkg, hgk]
      · simp [appendAt, lookupList, h1, h2, ih]

theorem mem_keys_appendAt (m : List (String × List Rat)) (k g : String) (v : Rat) :
    g ∈ (appendAt m k v).map Prod.fst ↔ g ∈ m.map Prod.fst ∨ g = k := by
  induction m with
  | nil => simp [appendAt]
  | cons kv rest ih =>
    obtain ⟨k', vs⟩ := kv
    by_cases h1 : k' = k
    · subst h1
      constructor
      · intro h
        rcases (by simpa [appendAt] using h) with h | h
        · exact Or.inr h
        · exact Or.inl (by simp [h])
      · intro h
        rcases h with h | h
        · rcases (by simpa using h) with h | h
          · simp [appendAt, h]
          · simp [appendAt, Or.inr h]
        · simp [appendAt, h]
    · simp only [appendAt, if_neg h1, List.map_cons, List.mem_cons, ih]
      tauto

theorem lookupList_accumRecord_pvals (st : AccumState) (r : ResultRecord) (g : String) :
    lookupList (accumRecord st r).pvals g =
      if r.gene_id = g then lookupList st.pvals g ++ [r.p_value]
      else lookupList st.pvals g :=
  lookupList_appendAt st.pvals r.gene_id g r.p_value

/-- The p-value series of one gene after scanning one file: the old series
extended by the `PValue` of every row of the file labelled with that gene,
in row order. -/
theorem lookupList_accumFile_pvals (f : ResultFile) (st : AccumState) (g : String) :
    lookupList (accumFile st f).pvals g =
      lookupList st.pvals g ++
        (f.filter (fun r => decide (r.gene_id = g))).map (fun r => r.p_value) := by
  induction f generalizing st with
  | nil => simp [accumFile]
  | cons r f ih =>
    have step : accumFile st (r :: f) = accumFile (accumRecord st r) f := rfl
    rw [step, ih, lookupList_accumRecord_pvals]
    by_cases h : r.gene_id = g <;> simp [h, List.filter_cons]

/-- The p-value series of a gene after scanning a list of files from a
given accumulator: the old series followed by the per-file contributions
in file-enumeration order. -/
theorem lookupList_foldl_accumFile_pvals (files : List ResultFile) (st : AccumState)
    (g : String) :
    lookupList (files.foldl accumFile st).pvals g =
      lookupList st.pvals g ++
        (files.map (fun f =>
          (f.filter (fun r => decide (r.gene_id = g))).map (fun r => r.p_value))).flatten := by
  induction files generalizing st with
  | nil => simp
  | cons f files ih =>
    rw [List.foldl_cons, ih, lookupList_accumFile_pvals, List.map_cons,
      List.flatten_cons, List.append_assoc]

theorem mem_keys_accumRecord (st : AccumState) (r : ResultRecord) (g : String) :
    g ∈ (accumRecord st r).pvals.map Prod.fst ↔
      g ∈ st.pvals.map Prod.fst ∨ g = r.gene_id :=
  mem_keys_appendAt st.pvals r.gene_id g r.p_value

theorem mem_keys_accumFile (f : ResultFile) (st : AccumState) (g : String) :
    g ∈ (accumFile st f).pvals.map Prod.fst ↔
      g ∈ st.pvals.map Prod.fst ∨ ∃ r ∈ f, r.gene_id = g := by
  induction f generalizing st with
  | nil => simp [accumFile]
  | cons r f ih =>
    have step : accumFile st (r :: f) = accumFile (accumRecord st r) f := rfl
    rw [step, ih, mem_keys_accumRecord]
    constructor
    · rintro ((h | h) | h)
      · exact Or.inl h
      · exact Or.inr ⟨r, by simp, h.symm⟩
      · obtain ⟨r', hr', hg⟩ := h
        exact Or.inr ⟨r', by simp [hr'], hg⟩
    · rintro (h | ⟨r', hr', hg⟩)
      · exact Or.inl (Or.inl h)
      · rcases (by simpa using hr') with h | h
        · exact Or.inl (Or.inr (h ▸ hg.symm))
        · exact Or.inr ⟨r', h, hg⟩

theorem mem_keys_foldl_accumFile (files : List ResultFile) (st : AccumState)
    (g : String) :
    g ∈ (files.foldl accumFile st).pvals.map Prod.fst ↔
      g ∈ st.pvals.map Prod.fst ∨ ∃ f ∈ files, ∃ r ∈ f, r.gene_id = g := by
  induction files generalizing st with
  | nil => simp
  | cons f files ih =>
    rw [List.foldl_cons, ih, mem_keys_accumFile]
    constructor
    · rintro ((h | h) | ⟨f', hf', hr⟩)
      · exact Or.inl h
      · exact Or.inr ⟨f, by simp, h⟩
      · exact Or.inr ⟨f', by simp [hf'], hr⟩
    · rintro (h | ⟨f', hf', hr⟩)
      · exact Or.inl (Or.inl h)
      · rcases (by simpa using hf') with h | h
        · exact Or.inl (Or.inr (h ▸ hr))
        · exact Or.inr ⟨f', h, hr⟩

/-! ## Sorting lemmas -/

theorem insertRow_perm (x : RankedRow) (l : List RankedRow) :
    List.Perm (insertRow x l) (x :: l) := by
  induction l with
  | nil => simp [insertRow]
  | cons y ys ih =>
    rw [insertRow]
    by_cases h : y.pval_counts ≤ x.pval_counts
    · simp [h]
    · rw [if_neg h]
      exact ((ih.cons y).trans (List.Perm.swap x y ys))

theorem sort_values_perm (t : List RankedRow) : List.Perm (sort_values t) t := by
  induction t with
  | nil => simp [sort_values]
  | cons x t ih =>
    have step : sort_values (x :: t) = insertRow x (sort_values t) := rfl
    rw [step]
    exact (insertRow_perm x (sort_values t)).trans (ih.cons x)

theorem mem_gene_sort_values (t : List RankedRow) (g : String) :
    g ∈ (sort_values t).map (fun row => row.gene) ↔
      g ∈ t.map (fun row => row.gene) :=
  ((sort_values_perm t).map (fun row => row.gene)).mem_iff

theorem mem_gene_map_mkRow (st : AccumState) (gs : List String) (g : String)
    (h : g ∈ gs) : g ∈ (gs.map (mkRow st)).map (fun row => row.gene) := by
  rw [List.map_map]
  exact List.mem_map.mpr ⟨g, h, rfl⟩

/-! ## Statistics lemmas -/

theorem median_singleton (x : Rat) : median [x] = x := by
  simp [median, sortRat, insertSorted]

theorem variance_singleton (x : Rat) : variance [x] = 0 := by
  simp [variance, listMean]

theorem stdR_singleton (x : Rat) : stdR [x] = 0 := by
  rw [stdR, variance_singleton]
  simp

/-! ## Classifier lemmas -/

theorem countOcc_pos_iff (b : String) (l : List String) : 0 < countOcc b l ↔ b ∈ l := by
  induction l with
  | nil => simp [countOcc]
  | cons x xs ih =>
    by_cases h : x = b
    · simp [countOcc, h]
    · have : ¬ b = x := fun hh => h hh.symm
      simp [countOcc, h, this, ih]

theorem mem_matchedSubjects (dfs : List String) (b : String) :
    b ∈ matchedSubjects dfs ↔
      countOcc b (dfs.map stripTypeSuffix) = 2 ∧
        (b ++ ".11.tsv") ∈ dfs ∧ (b ++ ".01.tsv") ∈ dfs := by
  rw [matchedSubjects, List.mem_filter]
  constructor
  · rintro ⟨-, h⟩
    exact of_decide_eq_true h
  · intro h
    refine ⟨?_, decide_eq_true h⟩
    rw [List.mem_dedup]
    rw [← countOcc_pos_iff, h.1]
    exact Nat.zero_lt_succ 1

theorem mem_unmatchedFilesOf (dfs : List String) (x : String) :
    x ∈ unmatchedFilesOf dfs ↔ x ∈ dfs ∧ ¬ x ∈ matchedFilesOf dfs := by
  rw [unmatchedFilesOf, List.mem_filter]
  constructor
  · rintro ⟨h1, h2⟩
    exact ⟨h1, of_decide_eq_true h2⟩
  · rintro ⟨h1, h2⟩
    exact ⟨h1, decide_eq_true h2⟩

/-! ## Per-file contribution counting (for the `num_samples` column) -/

theorem length_flatten_contrib (files : List ResultFile) (g : String)
    (h : ∀ f ∈ files, ((f.filter (fun r => decide (r.gene_id = g))).length ≤ 1)) :
    ((files.map (fun f =>
        (f.filter (fun r => decide (r.gene_id = g))).map (fun r => r.p_value))).flatten).length
      = (files.filter (fun f => f.any (fun r => decide (r.gene_id = g)))).length := by
  induction files with
  | nil => simp
  | cons f files ih =>
    have hf := h f (by simp)
    have hrest : ∀ f2 ∈ files, ((f2.filter (fun r => decide (r.gene_id = g))).length ≤ 1) :=
      fun f2 hf2 => h f2 (by simp [hf2])
    rw [List.map_cons, List.flatten_cons, List.length_append, List.length_map,
      ih hrest, List.filter_cons]
    by_cases hA : f.any (fun r => decide (r.gene_id = g)) = true
    · obtain ⟨r, hr, hp⟩ := List.any_eq_true.mp hA
      have hne : r ∈ f.filter (fun r => decide (r.gene_id = g)) :=
        List.mem_filter.mpr ⟨hr, hp⟩
      have hpos : 0 < (f.filter (fun r => decide (r.gene_id = g))).length :=
        List.length_pos.mpr (List.ne_nil_of_mem hne)
      have hone : (f.filter (fun r => decide (r.gene_id = g))).length = 1 :=
        Nat.le_antisymm hf hpos
      simp [hA, hone, Nat.add_comm]
    · have hnil : f.filter (fun r => decide (r.gene_id = g)) = [] := by
        rw [List.filter_eq_nil_iff]
        intro r hr
        have := List.any_eq_true.not.mp hA
        push_neg at this
        exact fun hp => (by simpa [hp] using this r hr)
      simp [hA, hnil]

/-! ## Claim theorems -/

/-- C1: the spec claims a non-zero exit of any scheduled external
computation makes the run fail, before ranking, with a message containing
the failing unit's id and its captured stdout and stderr.  The code does
not: the worker's error message is the same constant for every sample (no
unit id, and `communicate()` returns `None` for both streams because no
pipes were requested), `run_pairwise_edger` never consumes the
`executor.map` result iterator so it returns successfully, and `main`
proceeds to ranking and produces the ranked tables. -/
theorem C1_job_failure_swallowed :
    run_edger "TCGA.A" ⟨1⟩
        = Except.error "EdgeR run failed!\n\n\nstdout:\nNonestderr:\nNone\n\n\n"
      ∧ run_edger "TCGA.B" ⟨1⟩
        = Except.error "EdgeR run failed!\n\n\nstdout:\nNonestderr:\nNone\n\n\n"
      ∧ run_pairwise_edger [("TCGA.A", ⟨1⟩), ("TCGA.B", ⟨0⟩)] = Except.ok ()
      ∧ (main_pipeline [("TCGA.A", ⟨1⟩), ("TCGA.B", ⟨0⟩)] []
            [[⟨"g1", mkRat 1 2, 0, 0⟩]]).map (fun t => t.2.map (fun r => r.gene))
          = some ["g1"] :=
  ⟨rfl, rfl, rfl, by decide⟩

/-- C2 counterexample: the accumulator is not empty at the start of the
unmatched pass.  With one masked file containing only gene `gM` and one
unmatched file containing only gene `gU`, the unmatched ranked table
contains a row for `gM` even though `gM` appears in no unmatched file. -/
theorem C2_counterexample_leak :
    "gM" ∈ ((read_results_rank [[⟨"gM", mkRat 1 2, 1, 2⟩]]
        [[⟨"gU", mkRat 1 4, 3, 4⟩]]).2.map (fun r => r.gene))
      ∧ ([[⟨"gU", mkRat 1 4, 3, 4⟩]] : List ResultFile).all
          (fun f => f.all (fun r => !(r.gene_id == "gM"))) = true := by
  decide

/-- C2 amended: the per-gene accumulator is instance state created once in
`__init__` and never cleared between result-set passes, so the masked
pass's contents are still present at the start of the unmatched pass: the
unmatched ranked table equals the table computed over the masked and
unmatched file lists concatenated, not over the unmatched files alone. -/
theorem C2_accumulator_carries_over (M U : List ResultFile) :
    (read_results_rank M U).1 = rank_results (M.foldl accumFile initAccum)
      ∧ (read_results_rank M U).2
          = rank_results ((M ++ U).foldl accumFile initAccum) := by
  refine ⟨rfl, ?_⟩
  show rank_results (U.foldl accumFile (M.foldl accumFile initAccum))
      = rank_results ((M ++ U).foldl accumFile initAccum)
  rw [List.foldl_append]

/-- C4: the spec claims every row's `gene_name` is the mapping of that
row's own gene id (or the raw id when unmapped).  The code computes the
mapped-name list in pre-sort gene-enumeration order and then assigns it
positionally to the already-sorted table, so rows receive other genes'
names whenever sorting permutes the order: here the row keyed `g2` carries
`NAME1`, the mapping of `g1`, although `g2` maps to `NAME2`.  The lookup
fallback itself (an unmapped id maps to itself) is as claimed. -/
theorem C4_gene_name_misaligned :
    (rank_and_map [("g1", "NAME1"), ("g2", "NAME2")] initAccum
        [[⟨"g1", mkRat 1 2, 0, 0⟩, ⟨"g2", mkRat 1 10000, 0, 0⟩]]).map
      (fun p => (p.1.gene, p.2))
      = [("g2", "NAME1"), ("g1", "NAME2")]
    ∧ mapGene [("g1", "NAME1"), ("g2", "NAME2")] "g2" = "NAME2"
    ∧ mapGene [("g1", "NAME1"), ("g2", "NAME2")] "g1" = "NAME1"
    ∧ mapGene [("g1", "NAME1"), ("g2", "NAME2")] "gZ" = "gZ" := by
  refine ⟨by decide, by decide, by decide, by decide⟩

/-- C5: the mask engine's sidecar list contains exactly the gene ids whose
normal-file `PValue` is below `0.001` (in normal-file row order), the
masked tumor table contains exactly the tumor rows whose gene id is not in
that list (a flagged id absent from the tumor table is silently skipped),
and the spec's concrete instance behaves as claimed: normal
`{g1: 0.0001, g2: 0.5}` with tumor `{g1, g2, g3}` yields output `{g2, g3}`
and masked-gene list `{g1}`. -/
theorem C5_mask_exact :
    (∀ df_norm df_tumor : ResultFile, ∀ g : String,
        g ∈ (produce_mask df_norm df_tumor).2 ↔
          ∃ r ∈ df_norm, r.p_value < pvalThreshold ∧ r.gene_id = g)
    ∧ (∀ df_norm df_tumor : ResultFile, ∀ r : ResultRecord,
        r ∈ (produce_mask df_norm df_tumor).1 ↔
          r ∈ df_tumor ∧ r.gene_id ∉ (produce_mask df_norm df_tumor).2)
    ∧ produce_mask [⟨"g1", mkRat 1 10000, 0, 0⟩, ⟨"g2", mkRat 1 2, 0, 0⟩]
        [⟨"g1", mkRat 1 100, 5, 6⟩, ⟨"g2", mkRat 1 100, 7, 8⟩,
          ⟨"g3", mkRat 1 100, 9, 10⟩]
        = ([⟨"g2", mkRat 1 100, 7, 8⟩, ⟨"g3", mkRat 1 100, 9, 10⟩], ["g1"]) := by
  refine ⟨?_, ?_, by decide⟩
  · intro df_norm df_tumor g
    simp only [produce_mask, List.mem_map, List.mem_filter, decide_eq_true_eq]
    constructor
    · rintro ⟨r, ⟨hr, hp⟩, hg⟩
      exact ⟨r, hr, hp, hg⟩
    · rintro ⟨r, hr, hp, hg⟩
      exact ⟨r, ⟨hr, hp⟩, hg⟩
  · intro df_norm df_tumor r
    show r ∈ ((df_norm.filter (fun r => decide (r.p_value < pvalThreshold))).map
        (fun r => r.gene_id)).foldl dropGene df_tumor ↔ _
    rw [foldl_dropGene_eq_filter, List.mem_filter]
    constructor
    · rintro ⟨hr, hm⟩
      exact ⟨hr, of_decide_eq_true hm⟩
    · rintro ⟨hr, hm⟩
      exact ⟨hr, decide_eq_true hm⟩

/-- C6 counterexample: with the masked pass already having accumulated a
`g1` p-value, the unmatched pass's table reports `num_samples = 4` for
`g1` although exactly `3` unmatched files contain `g1` — the claim's
"number of files containing the gene" (and its three-file instance with
`num_samples = 3`) fails on the second result-set pass. -/
theorem C6_counterexample_carryover :
    ((read_results_rank [[⟨"g1", mkRat 1 2, 0, 0⟩]]
        [[⟨"g1", mkRat 1 10000, 0, 0⟩], [⟨"g1", mkRat 1 2, 0, 0⟩],
          [⟨"g1", mkRat 9 10000, 0, 0⟩]]).2.map
      (fun r => (r.gene, r.num_samples))) = [("g1", 4)]
    ∧ (([[⟨"g1", mkRat 1 10000, 0, 0⟩], [⟨"g1", mkRat 1 2, 0, 0⟩],
          [⟨"g1", mkRat 9 10000, 0, 0⟩]] : List ResultFile).filter
        (fun f => f.any (fun r => decide (r.gene_id = "g1")))).length = 3 := by
  refine ⟨by decide, by decide⟩

/-- C6 amended: provided the pass starts from the empty accumulator (as
the first ranked result-set does; the second pass inherits the first's
accumulator), a gene's p-value series is the concatenation of its per-file
values in file-enumeration order (genes absent from some files simply get
a shorter series, nothing is imputed), `num_samples` is the number of
files containing the gene (given the per-file gene-uniqueness invariant),
`pval` is the median of that series and `pval_counts` the number of its
entries strictly below `0.001`. -/
theorem C6_stats_from_empty_accumulator (files : List ResultFile) (g : String)
    (huniq : ∀ f ∈ files, ((f.filter (fun r => decide (r.gene_id = g))).length ≤ 1)) :
    lookupList ((files.foldl accumFile initAccum)).pvals g
      = (files.map (fun f =>
          (f.filter (fun r => decide (r.gene_id = g))).map (fun r => r.p_value))).flatten
    ∧ (mkRow (files.foldl accumFile initAccum) g).num_samples
      = (files.filter (fun f => f.any (fun r => decide (r.gene_id = g)))).length
    ∧ (mkRow (files.foldl accumFile initAccum) g).pval
      = median ((files.map (fun f =>
          (f.filter (fun r => decide (r.gene_id = g))).map (fun r => r.p_value))).flatten)
    ∧ (mkRow (files.foldl accumFile initAccum) g).pval_counts
      = (((files.map (fun f =>
          (f.filter (fun r => decide (r.gene_id = g))).map (fun r => r.p_value))).flatten).filter
            (fun y => decide (y < pvalThreshold))).length := by
  have h0 : lookupList initAccum.pvals g = [] := rfl
  have hser : lookupList ((files.foldl accumFile initAccum)).pvals g
      = (files.map (fun f =>
          (f.filter (fun r => decide (r.gene_id = g))).map (fun r => r.p_value))).flatten := by
    rw [lookupList_foldl_accumFile_pvals, h0, List.nil_append]
  refine ⟨hser, ?_, ?_, ?_⟩
  · show (lookupList ((files.foldl accumFile initAccum)).pvals g).length = _
    rw [hser, length_flatten_contrib files g huniq]
  · show median (lookupList ((files.foldl accumFile initAccum)).pvals g) = _
    rw [hser]
  · show ((lookupList ((files.foldl accumFile initAccum)).pvals g).filter
        (fun y => decide (y < pvalThreshold))).length = _
    rw [hser]

/-- C6 witness: the spec's three-file instance, from the empty
accumulator: each file contains `g1` once, `num_samples` equals the number
of files containing `g1`, and the full row is
`(g1, median = 0.0009, count = 2, num_samples = 3)`. -/
theorem C6_stats_witness :
    (∀ f ∈ ([[⟨"g1", mkRat 1 10000, 0, 0⟩], [⟨"g1", mkRat 1 2, 0, 0⟩],
        [⟨"g1", mkRat 9 10000, 0, 0⟩]] : List ResultFile),
      ((f.filter (fun r => decide (r.gene_id = "g1"))).length ≤ 1))
    ∧ (mkRow (([[⟨"g1", mkRat 1 10000, 0, 0⟩], [⟨"g1", mkRat 1 2, 0, 0⟩],
          [⟨"g1", mkRat 9 10000, 0, 0⟩]] : List ResultFile).foldl accumFile initAccum)
        "g1").num_samples
      = (([[⟨"g1", mkRat 1 10000, 0, 0⟩], [⟨"g1", mkRat 1 2, 0, 0⟩],
          [⟨"g1", mkRat 9 10000, 0, 0⟩]] : List ResultFile).filter
            (fun f => f.any (fun r => decide (r.gene_id = "g1")))).length
    ∧ mkRow (([[⟨"g1", mkRat 1 10000, 0, 0⟩], [⟨"g1", mkRat 1 2, 0, 0⟩],
          [⟨"g1", mkRat 9 10000, 0, 0⟩]] : List ResultFile).foldl accumFile initAccum)
        "g1" = ⟨"g1", mkRat 9 10000, 2, 0, 0, 3⟩ :=
  ⟨by decide,
    (C6_stats_from_empty_accumulator
      [[⟨"g1", mkRat 1 10000, 0, 0⟩], [⟨"g1", mkRat 1 2, 0, 0⟩],
        [⟨"g1", mkRat 9 10000, 0, 0⟩]] "g1" (by decide)).2.1,
    by decide⟩

/-- C7: a subject is matched iff its barcode occurs exactly twice among
the `.tsv` files and both its `.11.tsv` and `.01.tsv` files literally
exist; every listed file is relocated to exactly one of the matched or
unmatched areas; and on the spec's instance `{A.01, A.11, B.01, C.11}` the
matched set is `{A}` and the unmatched files are `{B.01, C.11}`. -/
theorem C7_classifier_correct :
    (∀ dfs : List String, ∀ b : String,
        b ∈ matchedSubjects dfs ↔
          countOcc b (dfs.map stripTypeSuffix) = 2 ∧
            (b ++ ".11.tsv") ∈ dfs ∧ (b ++ ".01.tsv") ∈ dfs)
    ∧ (∀ dfs : List String, ∀ x ∈ dfs,
        (x ∈ matchedFilesOf dfs ∧ x ∉ unmatchedFilesOf dfs) ∨
          (x ∉ matchedFilesOf dfs ∧ x ∈ unmatchedFilesOf dfs))
    ∧ read_results_classify ["A.01.tsv", "A.11.tsv", "B.01.tsv", "C.11.tsv"]
        = (["A"], ["A.11.tsv", "A.01.tsv"], ["B.01.tsv", "C.11.tsv"]) := by
  refine ⟨mem_matchedSubjects, ?_, by decide⟩
  intro dfs x hx
  by_cases h : x ∈ matchedFilesOf dfs
  · exact Or.inl ⟨h, fun hc => ((mem_unmatchedFilesOf dfs x).mp hc).2 h⟩
  · exact Or.inr ⟨h, (mem_unmatchedFilesOf dfs x).mpr ⟨hx, h⟩⟩

/-- C7 witness: the relocation dichotomy applied to the file `B.01.tsv` of
the spec's instance: it is in the listing, and lands in exactly one area
(the unmatched one). -/
theorem C7_classifier_witness :
    "B.01.tsv" ∈ (["A.01.tsv", "A.11.tsv", "B.01.tsv", "C.11.tsv"] : List String)
    ∧ (("B.01.tsv" ∈ matchedFilesOf ["A.01.tsv", "A.11.tsv", "B.01.tsv", "C.11.tsv"] ∧
          "B.01.tsv" ∉ unmatchedFilesOf ["A.01.tsv", "A.11.tsv", "B.01.tsv", "C.11.tsv"]) ∨
        ("B.01.tsv" ∉ matchedFilesOf ["A.01.tsv", "A.11.tsv", "B.01.tsv", "C.11.tsv"] ∧
          "B.01.tsv" ∈ unmatchedFilesOf ["A.01.tsv", "A.11.tsv", "B.01.tsv", "C.11.tsv"])) :=
  ⟨by decide,
    C7_classifier_correct.2.1 ["A.01.tsv", "A.11.tsv", "B.01.tsv", "C.11.tsv"]
      "B.01.tsv" (by decide)⟩

/-- C8: the underrepresented-gene filter (`_remove_unrepresented_genes`)
is never invoked on the pipeline path, so every gene id that occurs in at
least one file folded into the accumulator appears as a row of the ranked
table, however few files contain it and whatever the accumulator already
held. -/
theorem C8_no_underrepresented_filter (st : AccumState) (files : List ResultFile)
    (g : String) (h : ∃ f ∈ files, ∃ r ∈ f, r.gene_id = g) :
    g ∈ (rank_results (files.foldl accumFile st)).map (fun row => row.gene) := by
  rw [rank_results, mem_gene_sort_values]
  exact mem_gene_map_mkRow _ _ _
    ((mem_keys_foldl_accumFile files st g).mpr (Or.inr h))

/-- C8 witness: a gene occurring in a single file of the set appears in
the ranked table. -/
theorem C8_no_underrepresented_filter_witness :
    (∃ f ∈ ([[⟨"gOnly", mkRat 1 2, 0, 0⟩]] : List ResultFile),
        ∃ r ∈ f, r.gene_id = "gOnly")
    ∧ "gOnly" ∈ (rank_results (([[⟨"gOnly", mkRat 1 2, 0, 0⟩]] : List ResultFile).foldl
        accumFile initAccum)).map (fun row => row.gene) :=
  ⟨by decide, C8_no_underrepresented_filter initAccum _ "gOnly" (by decide)⟩

/-- C9: the mask engine only deletes rows: the masked tumor table is a
sublist of the input tumor table (surviving rows keep their `PValue`,
`logFC`, `logCPM` exactly and their relative order), and every tumor row
whose gene id is not flagged survives. -/
theorem C9_mask_frame (df_norm df_tumor : ResultFile) :
    List.Sublist (produce_mask df_norm df_tumor).1 df_tumor
    ∧ ∀ r ∈ df_tumor, r.gene_id ∉ (produce_mask df_norm df_tumor).2 →
        r ∈ (produce_mask df_norm df_tumor).1 := by
  constructor
  · show List.Sublist (((df_norm.filter (fun r => decide (r.p_value < pvalThreshold))).map
        (fun r => r.gene_id)).foldl dropGene df_tumor) df_tumor
    rw [foldl_dropGene_eq_filter]
    exact List.filter_sublist df_tumor
  · intro r hr hmem
    show r ∈ ((df_norm.filter (fun r => decide (r.p_value < pvalThreshold))).map
        (fun r => r.gene_id)).foldl dropGene df_tumor
    rw [foldl_dropGene_eq_filter]
    exact List.mem_filter.mpr ⟨hr, decide_eq_true hmem⟩

/-- C9 witness: on the spec's masking instance, the masked table is a
sublist of the tumor table and the unflagged row `g3` survives with its
values intact. -/
theorem C9_mask_frame_witness :
    List.Sublist (produce_mask [⟨"g1", mkRat 1 10000, 0, 0⟩, ⟨"g2", mkRat 1 2, 0, 0⟩]
        [⟨"g1", mkRat 1 100, 5, 6⟩, ⟨"g2", mkRat 1 100, 7, 8⟩,
          ⟨"g3", mkRat 1 100, 9, 10⟩]).1
      [⟨"g1", mkRat 1 100, 5, 6⟩, ⟨"g2", mkRat 1 100, 7, 8⟩,
        ⟨"g3", mkRat 1 100, 9, 10⟩]
    ∧ (⟨"g3", mkRat 1 100, 9, 10⟩ : ResultRecord) ∈
        (produce_mask [⟨"g1", mkRat 1 10000, 0, 0⟩, ⟨"g2", mkRat 1 2, 0, 0⟩]
          [⟨"g1", mkRat 1 100, 5, 6⟩, ⟨"g2", mkRat 1 100, 7, 8⟩,
            ⟨"g3", mkRat 1 100, 9, 10⟩]).1 :=
  ⟨(C9_mask_frame [⟨"g1", mkRat 1 10000, 0, 0⟩, ⟨"g2", mkRat 1 2, 0, 0⟩]
      [⟨"g1", mkRat 1 100, 5, 6⟩, ⟨"g2", mkRat 1 100, 7, 8⟩,
        ⟨"g3", mkRat 1 100, 9, 10⟩]).1,
    (C9_mask_frame [⟨"g1", mkRat 1 10000, 0, 0⟩, ⟨"g2", mkRat 1 2, 0, 0⟩]
      [⟨"g1", mkRat 1 100, 5, 6⟩, ⟨"g2", mkRat 1 100, 7, 8⟩,
        ⟨"g3", mkRat 1 100, 9, 10⟩]).2
      ⟨"g3", mkRat 1 100, 9, 10⟩ (by decide) (by decide)⟩

/-- C10: a gene whose three series each hold exactly one value appears in
the ranked table with `num_samples = 1`, medians equal to the single
observed values, and all three standard-deviation column entries exactly
`0` (the population standard deviation of a one-element series) — total,
never an undefined or missing value. -/
theorem C10_singleton_gene (st : AccumState) (g : String) (p q c : Rat)
    (hg : g ∈ st.pvals.map Prod.fst)
    (hp : lookupList st.pvals g = [p])
    (hf : lookupList st.fc g = [q])
    (hc : lookupList st.cpm g = [c]) :
    mkRow st g ∈ rank_results st
    ∧ (mkRow st g).num_samples = 1
    ∧ (mkRow st g).pval = p ∧ (mkRow st g).fc = q ∧ (mkRow st g).cpm = c
    ∧ pval_std st g = 0 ∧ fc_std st g = 0 ∧ cpm_std st g = 0 := by
  refine ⟨?_, ?_, ?_, ?_, ?_, ?_, ?_, ?_⟩
  · rw [rank_results]
    exact ((sort_values_perm ((st.pvals.map Prod.fst).map (mkRow st))).mem_iff).mpr
      (List.mem_map_of_mem (mkRow st) hg)
  · show (lookupList st.pvals g).length = 1
    rw [hp]
    rfl
  · show median (lookupList st.pvals g) = p
    rw [hp, median_singleton]
  · show median (lookupList st.fc g) = q
    rw [hf, median_singleton]
  · show median (lookupList st.cpm g) = c
    rw [hc, median_singleton]
  · rw [pval_std, hp, stdR_singleton]
  · rw [fc_std, hf, stdR_singleton]
  · rw [cpm_std, hc, stdR_singleton]

/-- C10 witness: a result-set consisting of one file with one gene. -/
theorem C10_singleton_gene_witness :
    "gS" ∈ (accumFile initAccum [⟨"gS", mkRat 1 2, 3, 4⟩]).pvals.map Prod.fst
    ∧ lookupList (accumFile initAccum [⟨"gS", mkRat 1 2, 3, 4⟩]).pvals "gS" = [mkRat 1 2]
    ∧ lookupList (accumFile initAccum [⟨"gS", mkRat 1 2, 3, 4⟩]).fc "gS" = [3]
    ∧ lookupList (accumFile initAccum [⟨"gS", mkRat 1 2, 3, 4⟩]).cpm "gS" = [4]
    ∧ (mkRow (accumFile initAccum [⟨"gS", mkRat 1 2, 3, 4⟩]) "gS").num_samples = 1 :=
  ⟨by decide, by decide, by decide, by decide,
    (C10_singleton_gene (accumFile initAccum [⟨"gS", mkRat 1 2, 3, 4⟩]) "gS"
      (mkRat 1 2) 3 4 (by decide) (by decide) (by decide) (by decide)).2.1⟩

end PairwiseDE
